import Mathlib

/-!
Shallow embedding of the cash-forecast core:
* `generateForecastWeeks` from `src/frontend/lib/forecast-service.ts`
  (the weekly projection generator), and
* `calculateKPIs` from the dashboard page (`src/unnamed/part_001`,
  the KPI derivation).

Currency amounts are modelled over `ℤ` (the source rounds every stored
amount to whole units with `Math.round`) and intermediate real-number
arithmetic over `ℚ`.  JavaScript's `Math.random()` is modelled as an
explicit randomness source `rand : ℤ → ℚ`, one value per week; its
contract (values in `[0,1)`) appears as a hypothesis where needed.
-/

namespace CashForecast

/-- JavaScript `Math.round`: rounds half toward positive infinity. -/
def jsRound (x : ℚ) : ℤ := ⌊x + 1/2⌋

/-- One row of the projection (`ForecastWeek` in `forecast-service.ts`).
The calendar date is modelled as a day offset (`startDate + (week-1)*7`). -/
structure ForecastWeek where
  week_number : ℤ
  week_date : ℤ
  inflow : ℤ
  outflow : ℤ
  net : ℤ
  balance : ℤ
  deriving DecidableEq, Repr

/-- The parameter record taken by `generateForecastWeeks`. -/
structure ForecastParams where
  weeks : ℤ
  startDate : ℤ
  startingBalance : ℤ
  revenueConfidence : ℤ
  expenseBuffer : ℤ
  deriving DecidableEq, Repr

/-- `baseInflow = 900000 + (Math.random() * 100000 - 50000)`. -/
def baseInflow (rand : ℤ → ℚ) (week : ℤ) : ℚ :=
  900000 + (rand week * 100000 - 50000)

/-- `baseOutflow = week % 2 === 0 ? 1000000 : 400000`. -/
def baseOutflow (week : ℤ) : ℚ :=
  if week % 2 = 0 then 1000000 else 400000

/-- `additionalExpense = week % 4 === 0 ? 300000 : 0`. -/
def additionalExpense (week : ℤ) : ℚ :=
  if week % 4 = 0 then 300000 else 0

/-- The record pushed for one week of the loop body of
`generateForecastWeeks`, given the running balance before this week. -/
def weekEntry (p : ForecastParams) (rand : ℤ → ℚ) (balance week : ℤ) :
    ForecastWeek :=
  let inflow := jsRound (baseInflow rand week * ((p.revenueConfidence : ℚ) / 100))
  let outflow := jsRound ((baseOutflow week + additionalExpense week) *
    ((p.expenseBuffer : ℚ) / 100))
  let net := inflow - outflow
  { week_number := week
    week_date := p.startDate + (week - 1) * 7
    inflow := inflow
    outflow := outflow
    net := net
    balance := balance + net }

/-- The `for` loop of `generateForecastWeeks`: iterates over the list of
week numbers, threading the running balance. -/
def generateLoop (p : ForecastParams) (rand : ℤ → ℚ) :
    ℤ → List ℤ → List ForecastWeek
  | _, [] => []
  | balance, week :: rest =>
    let e := weekEntry p rand balance week
    e :: generateLoop p rand e.balance rest

/-- `generateForecastWeeks` from `src/frontend/lib/forecast-service.ts`.
The loop `for (let week = 1; week <= weeks; week++)` runs over week
numbers `1..weeks` (and zero times when `weeks ≤ 0`). -/
def generateForecastWeeks (p : ForecastParams) (rand : ℤ → ℚ) :
    List ForecastWeek :=
  generateLoop p rand p.startingBalance
    ((List.range' 1 p.weeks.toNat).map (fun n : ℕ => (n : ℤ)))

/-- Coarse volatility classification used by the dashboard KPIs. -/
inductive Volatility where
  | Low
  | Medium
  | High
  deriving DecidableEq, Repr

/-- The KPI record produced by `calculateKPIs` (the `setKPIs` payload).
`lowestCash` is `WithTop ℤ` because JavaScript's `Math.min(...[])`
yields `Infinity` on an empty array. -/
structure KPIs where
  lowestCash : WithTop ℤ
  lowestWeek : ℤ
  runway : ℤ
  burnRate : ℤ
  belowThreshold : ℕ
  payrollRisk : ℕ
  volatility : Volatility
  volatilityScore : ℤ
  deriving DecidableEq

/-- `Math.min(...balances)`: minimum of a list, `Infinity` when empty. -/
def listMin (l : List ℤ) : WithTop ℤ :=
  l.foldr (fun (x : ℤ) (m : WithTop ℤ) => min (x : WithTop ℤ) m) ⊤

/-- `avgBurnRate`: `Math.abs(negativeFlows.reduce((s,f)=>s+f.net,0) /
negativeFlows.length)` when there are negative flows, else `0`. -/
def averageBurnRate (data : List ForecastWeek) : ℚ :=
  let negativeFlows := data.filter (fun f => decide (f.net < 0))
  if 0 < negativeFlows.length then
    |(((negativeFlows.map (·.net)).sum : ℤ) : ℚ) /
      ((negativeFlows.length : ℕ) : ℚ)|
  else 0

/-- `calculateKPIs` from the dashboard page (`src/unnamed/part_001`). -/
def calculateKPIs (data : List ForecastWeek) : KPIs :=
  let lowestCash : WithTop ℤ := listMin (data.map (·.balance))
  let lowestWeek : ℤ :=
    ((data.find? (fun f => decide ((f.balance : WithTop ℤ) = lowestCash))).map
      (·.week_number)).getD 0
  let avgBurnRate : ℚ := averageBurnRate data
  let finalBalance : ℤ := ((data.getLast?).map (·.balance)).getD 0
  { lowestCash := lowestCash
    lowestWeek := lowestWeek
    runway := if 0 < avgBurnRate then ⌊(finalBalance : ℚ) / avgBurnRate⌋ else 99
    burnRate := jsRound avgBurnRate
    belowThreshold := (data.filter (fun f => decide (f.balance < 1000000))).length
    payrollRisk := ((data.enum).filter
      (fun q => decide (q.1 % 2 = 0 ∧ q.2.balance < 2000000))).length
    volatility := if 600000 < avgBurnRate then Volatility.High
      else if 300000 < avgBurnRate then Volatility.Medium else Volatility.Low
    volatilityScore := jsRound avgBurnRate }

/-! ### Basic facts about `jsRound` -/

theorem jsRound_eq_of (x : ℚ) (n : ℤ) (h₁ : (n : ℚ) ≤ x + 1/2)
    (h₂ : x + 1/2 < (n : ℚ) + 1) : jsRound x = n :=
  Int.floor_eq_iff.mpr ⟨h₁, h₂⟩

theorem jsRound_intCast (n : ℤ) : jsRound (n : ℚ) = n := by
  unfold jsRound
  rw [Int.floor_int_add]
  have : ⌊(1/2 : ℚ)⌋ = 0 := Int.floor_eq_iff.mpr (by norm_num)
  omega

theorem jsRound_mono {x y : ℚ} (h : x ≤ y) : jsRound x ≤ jsRound y :=
  Int.floor_mono (by linarith)

theorem jsRound_nonneg {x : ℚ} (h : 0 ≤ x) : 0 ≤ jsRound x :=
  Int.le_floor.mpr (by push_cast; linarith)

/-! ### Structure of the generated projection -/

theorem loop_map_week (p : ForecastParams) (rand : ℤ → ℚ) (b : ℤ)
    (ws : List ℤ) :
    (generateLoop p rand b ws).map (·.week_number) = ws := by
  induction ws generalizing b with
  | nil => rfl
  | cons w rest ih => simp [generateLoop, weekEntry, ih]

theorem loop_length (p : ForecastParams) (rand : ℤ → ℚ) (b : ℤ)
    (ws : List ℤ) :
    (generateLoop p rand b ws).length = ws.length := by
  have := congrArg List.length (loop_map_week p rand b ws)
  simpa using this

theorem loop_mem_net (p : ForecastParams) (rand : ℤ → ℚ) (b : ℤ)
    (ws : List ℤ) :
    ∀ w ∈ generateLoop p rand b ws, w.net = w.inflow - w.outflow := by
  induction ws generalizing b with
  | nil => intro w hw; cases hw
  | cons x rest ih =>
    intro w hw
    rcases List.mem_cons.mp hw with h | h
    · subst h; rfl
    · exact ih _ w h

theorem loop_mem_flows (p : ForecastParams) (rand : ℤ → ℚ) (b : ℤ)
    (ws : List ℤ) :
    ∀ w ∈ generateLoop p rand b ws,
      w.inflow = jsRound (baseInflow rand w.week_number *
        ((p.revenueConfidence : ℚ) / 100)) ∧
      w.outflow = jsRound ((baseOutflow w.week_number +
        additionalExpense w.week_number) * ((p.expenseBuffer : ℚ) / 100)) := by
  induction ws generalizing b with
  | nil => intro w hw; cases hw
  | cons x rest ih =>
    intro w hw
    rcases List.mem_cons.mp hw with h | h
    · subst h; exact ⟨rfl, rfl⟩
    · exact ih _ w h

theorem loop_get_zero (p : ForecastParams) (rand : ℤ → ℚ) (b : ℤ)
    (ws : List ℤ) (h : 0 < (generateLoop p rand b ws).length) :
    ((generateLoop p rand b ws).get ⟨0, h⟩).balance =
      b + ((generateLoop p rand b ws).get ⟨0, h⟩).net := by
  cases ws with
  | nil => simp [generateLoop] at h
  | cons x rest => rfl

theorem loop_chain (p : ForecastParams) (rand : ℤ → ℚ) (b : ℤ)
    (ws : List ℤ) (i : ℕ)
    (hi : i + 1 < (generateLoop p rand b ws).length) :
    ((generateLoop p rand b ws).get ⟨i + 1, hi⟩).balance =
      ((generateLoop p rand b ws).get ⟨i, Nat.lt_of_succ_lt hi⟩).balance +
      ((generateLoop p rand b ws).get ⟨i + 1, hi⟩).net := by
  induction ws generalizing b i with
  | nil => simp [generateLoop] at hi
  | cons x rest ih =>
    cases i with
    | zero =>
      have h0 : 0 < (generateLoop p rand
          (weekEntry p rand b x).balance rest).length := by
        simpa [generateLoop] using Nat.lt_of_succ_lt_succ hi
      simpa [generateLoop] using loop_get_zero p rand _ rest h0
    | succ k =>
      have hk : k + 1 < (generateLoop p rand
          (weekEntry p rand b x).balance rest).length := by
        simpa [generateLoop] using Nat.lt_of_succ_lt_succ hi
      simpa [generateLoop] using ih _ k hk

theorem loop_map_outflow (p : ForecastParams) (rand : ℤ → ℚ) (b : ℤ)
    (ws : List ℤ) :
    (generateLoop p rand b ws).map (·.outflow) =
      ws.map (fun w => jsRound ((baseOutflow w + additionalExpense w) *
        ((p.expenseBuffer : ℚ) / 100))) := by
  induction ws generalizing b with
  | nil => rfl
  | cons w rest ih => simp [generateLoop, weekEntry, ih]

theorem generateForecastWeeks_length (p : ForecastParams) (rand : ℤ → ℚ) :
    (generateForecastWeeks p rand).length = p.weeks.toNat := by
  simp [generateForecastWeeks, loop_length]

theorem loop_get_week (p : ForecastParams) (rand : ℤ → ℚ) (b : ℤ)
    (ws : List ℤ) (i : ℕ) (hi : i < (generateLoop p rand b ws).length)
    (hi' : i < ws.length) :
    ((generateLoop p rand b ws).get ⟨i, hi⟩).week_number = ws.get ⟨i, hi'⟩ := by
  induction ws generalizing b i with
  | nil => simp at hi'
  | cons x rest ih =>
    cases i with
    | zero => rfl
    | succ k =>
      have hk : k < (generateLoop p rand
          (weekEntry p rand b x).balance rest).length := by
        simpa [generateLoop] using Nat.lt_of_succ_lt_succ hi
      simpa [generateLoop] using ih _ k hk (Nat.lt_of_succ_lt_succ hi')

theorem gen_get_week (p : ForecastParams) (rand : ℤ → ℚ) (i : ℕ)
    (hi : i < (generateForecastWeeks p rand).length) :
    ((generateForecastWeeks p rand).get ⟨i, hi⟩).week_number = (i : ℤ) + 1 := by
  have hw : i < ((List.range' 1 p.weeks.toNat).map
      (fun n : ℕ => (n : ℤ))).length := by
    simpa [generateForecastWeeks, loop_length] using hi
  have h := loop_get_week p rand p.startingBalance
    ((List.range' 1 p.weeks.toNat).map (fun n : ℕ => (n : ℤ))) i hi hw
  rw [show ((generateForecastWeeks p rand).get ⟨i, hi⟩).week_number =
    ((generateLoop p rand p.startingBalance
      ((List.range' 1 p.weeks.toNat).map (fun n : ℕ => (n : ℤ)))).get
        ⟨i, hi⟩).week_number from rfl, h]
  simp only [List.get_eq_getElem, List.getElem_map, List.getElem_range'_1]
  push_cast
  ring

theorem gen_get_inflow (p : ForecastParams) (rand : ℤ → ℚ) (i : ℕ)
    (hi : i < (generateForecastWeeks p rand).length) :
    ((generateForecastWeeks p rand).get ⟨i, hi⟩).inflow =
      jsRound (baseInflow rand ((i : ℤ) + 1) *
        ((p.revenueConfidence : ℚ) / 100)) := by
  have hmem : (generateForecastWeeks p rand).get ⟨i, hi⟩ ∈
      generateForecastWeeks p rand := List.get_mem _ i hi
  have hf := (loop_mem_flows p rand p.startingBalance
    ((List.range' 1 p.weeks.toNat).map (fun n : ℕ => (n : ℤ))) _ hmem).1
  rw [hf, gen_get_week p rand i hi]

theorem gen_get_outflow (p : ForecastParams) (rand : ℤ → ℚ) (i : ℕ)
    (hi : i < (generateForecastWeeks p rand).length) :
    ((generateForecastWeeks p rand).get ⟨i, hi⟩).outflow =
      jsRound ((baseOutflow ((i : ℤ) + 1) + additionalExpense ((i : ℤ) + 1)) *
        ((p.expenseBuffer : ℚ) / 100)) := by
  have hmem : (generateForecastWeeks p rand).get ⟨i, hi⟩ ∈
      generateForecastWeeks p rand := List.get_mem _ i hi
  have hf := (loop_mem_flows p rand p.startingBalance
    ((List.range' 1 p.weeks.toNat).map (fun n : ℕ => (n : ℤ))) _ hmem).2
  rw [hf, gen_get_week p rand i hi]

/-! ### Helpers for the KPI derivation -/

theorem listMin_le {l : List ℤ} {x : ℤ} (h : x ∈ l) :
    listMin l ≤ (x : WithTop ℤ) := by
  induction l with
  | nil => cases h
  | cons y ys ih =>
    rcases List.mem_cons.mp h with rfl | h
    · exact min_le_left _ _
    · exact le_trans (min_le_right _ _) (ih h)

theorem listMin_attained {l : List ℤ} (h : l ≠ []) :
    ∃ x ∈ l, (x : WithTop ℤ) = listMin l := by
  induction l with
  | nil => exact absurd rfl h
  | cons y ys ih =>
    cases ys with
    | nil => exact ⟨y, List.mem_singleton_self y, by simp [listMin]⟩
    | cons z zs =>
      rcases ih (by simp) with ⟨x, hx, hxm⟩
      rcases le_total (y : WithTop ℤ) (listMin (z :: zs)) with hle | hle
      · exact ⟨y, List.mem_cons_self _ _, by
          simp only [listMin, List.foldr_cons] at *
          exact (min_eq_left hle).symm⟩
      · exact ⟨x, List.mem_cons_of_mem _ hx, by
          simp only [listMin, List.foldr_cons] at *
          rw [min_eq_right hle, hxm]⟩

theorem find?_first {α : Type} (q : α → Bool) (l : List α) (a : α)
    (h : l.find? q = some a) :
    ∃ i, ∃ hi : i < l.length, l.get ⟨i, hi⟩ = a ∧ q a = true ∧
      ∀ j (hj : j < l.length), j < i → q (l.get ⟨j, hj⟩) = false := by
  induction l with
  | nil => simp [List.find?] at h
  | cons x xs ih =>
    by_cases hx : q x
    · rw [List.find?_cons_of_pos _ hx] at h
      refine ⟨0, by simp, ?_, ?_, ?_⟩
      · simpa using (Option.some.injEq _ _ ▸ h).symm ▸ rfl
      · cases h; exact hx
      · intro j hj hj0; omega
    · rw [List.find?_cons_of_neg _ hx] at h
      rcases ih h with ⟨i, hi, hget, hqa, hprev⟩
      refine ⟨i + 1, by simpa using Nat.succ_lt_succ hi, by simpa using hget,
        hqa, ?_⟩
      intro j hj hji
      cases j with
      | zero => simpa using hx
      | succ k =>
        have hk : k < xs.length := by simpa using Nat.lt_of_succ_lt_succ hj
        have := hprev k hk (Nat.lt_of_succ_lt_succ hji)
        simpa using this

theorem find?_isSome_of_mem {α : Type} (q : α → Bool) (l : List α) (a : α)
    (ha : a ∈ l) (hq : q a = true) : ∃ b, l.find? q = some b := by
  induction l with
  | nil => cases ha
  | cons x xs ih =>
    by_cases hx : q x
    · exact ⟨x, List.find?_cons_of_pos _ hx⟩
    · rcases List.mem_cons.mp ha with rfl | ha'
      · exact absurd hq (by simp [hx])
      · rcases ih ha' with ⟨b, hb⟩
        exact ⟨b, by rw [List.find?_cons_of_neg _ hx]; exact hb⟩

theorem sum_neg_of_all_neg (l : List ℤ) (hne : l ≠ [])
    (h : ∀ x ∈ l, x < 0) : l.sum < 0 := by
  induction l with
  | nil => exact absurd rfl hne
  | cons x xs ih =>
    cases xs with
    | nil => simpa using h x (by simp)
    | cons y ys =>
      have hx := h x (by simp)
      have hs := ih (by simp) (fun z hz => h z (List.mem_cons_of_mem _ hz))
      simp only [List.sum_cons] at *
      omega

theorem sum_abs_of_all_neg (l : List ℤ) (h : ∀ x ∈ l, x < 0) :
    (l.map (fun x => |x|)).sum = -l.sum := by
  induction l with
  | nil => simp
  | cons x xs ih =>
    have hx := h x (by simp)
    have := ih (fun z hz => h z (List.mem_cons_of_mem _ hz))
    simp only [List.map_cons, List.sum_cons, this]
    rw [abs_of_neg hx]
    ring

theorem baseInflow_nonneg (rand : ℤ → ℚ) (w : ℤ) (hr : 0 ≤ rand w) :
    0 ≤ baseInflow rand w := by
  unfold baseInflow
  nlinarith [hr]

theorem baseOut_total_nonneg (w : ℤ) :
    0 ≤ baseOutflow w + additionalExpense w := by
  unfold baseOutflow additionalExpense
  split_ifs <;> norm_num

/-! ### Claim theorems -/

/-- C1: every generated period's net equals its inflow minus its outflow,
the first period's balance equals the starting balance plus the first net,
and every later period's balance equals the previous balance plus that
period's net, for all parameters and randomness sources. -/
theorem generate_net_balance_fold (p : ForecastParams) (rand : ℤ → ℚ) :
    (∀ w ∈ generateForecastWeeks p rand, w.net = w.inflow - w.outflow) ∧
    (∀ h0 : 0 < (generateForecastWeeks p rand).length,
      ((generateForecastWeeks p rand).get ⟨0, h0⟩).balance =
        p.startingBalance + ((generateForecastWeeks p rand).get ⟨0, h0⟩).net) ∧
    (∀ i (hi : i + 1 < (generateForecastWeeks p rand).length),
      ((generateForecastWeeks p rand).get ⟨i + 1, hi⟩).balance =
        ((generateForecastWeeks p rand).get
          ⟨i, Nat.lt_of_succ_lt hi⟩).balance +
        ((generateForecastWeeks p rand).get ⟨i + 1, hi⟩).net) :=
  ⟨loop_mem_net p rand p.startingBalance _,
   fun h0 => loop_get_zero p rand p.startingBalance _ h0,
   fun i hi => loop_chain p rand p.startingBalance _ i hi⟩

/-- Witness for C1 at a concrete input (weeks = 2, rand ≡ 0). -/
theorem generate_net_balance_fold_witness :
    0 + 1 < (generateForecastWeeks ⟨2, 0, 1000, 100, 100⟩ (fun _ => 0)).length ∧
    ((generateForecastWeeks ⟨2, 0, 1000, 100, 100⟩ (fun _ => 0)).get
        ⟨0 + 1, by rw [generateForecastWeeks_length]; norm_num⟩).balance =
      ((generateForecastWeeks ⟨2, 0, 1000, 100, 100⟩ (fun _ => 0)).get
        ⟨0, by rw [generateForecastWeeks_length]; norm_num⟩).balance +
      ((generateForecastWeeks ⟨2, 0, 1000, 100, 100⟩ (fun _ => 0)).get
        ⟨0 + 1, by rw [generateForecastWeeks_length]; norm_num⟩).net :=
  ⟨by rw [generateForecastWeeks_length]; norm_num,
   (generate_net_balance_fold ⟨2, 0, 1000, 100, 100⟩ (fun _ => 0)).2.2 0
     (by rw [generateForecastWeeks_length]; norm_num)⟩

/-- C8: for every horizon `h ≥ 1`, the generator returns exactly `h`
periods whose indices are `1, 2, ..., h` (strictly increasing, no gaps). -/
theorem generate_horizon_indices (p : ForecastParams) (rand : ℤ → ℚ)
    (h : 1 ≤ p.weeks) :
    ((generateForecastWeeks p rand).length : ℤ) = p.weeks ∧
    ∀ i (hi : i < (generateForecastWeeks p rand).length),
      ((generateForecastWeeks p rand).get ⟨i, hi⟩).week_number = (i : ℤ) + 1 :=
  ⟨by rw [generateForecastWeeks_length];
      exact Int.toNat_of_nonneg (by omega),
   fun i hi => gen_get_week p rand i hi⟩

/-- Witness for C8 at a concrete input (horizon 3). -/
theorem generate_horizon_indices_witness :
    (1 : ℤ) ≤ 3 ∧
    ((generateForecastWeeks ⟨3, 0, 0, 100, 100⟩ (fun _ => 0)).length : ℤ) = 3 ∧
    ((generateForecastWeeks ⟨3, 0, 0, 100, 100⟩ (fun _ => 0)).get
      ⟨2, by rw [generateForecastWeeks_length]; norm_num⟩).week_number = 3 :=
  ⟨by norm_num,
   (generate_horizon_indices ⟨3, 0, 0, 100, 100⟩ (fun _ => 0) (by norm_num)).1,
   (generate_horizon_indices ⟨3, 0, 0, 100, 100⟩ (fun _ => 0) (by norm_num)).2 2
     (by rw [generateForecastWeeks_length]; norm_num)⟩

/-- C9: with the randomness source fixed (values in `[0,1)`), increasing
`revenueConfidence` never decreases any period's inflow, and increasing
`expenseBuffer` never decreases any period's outflow. -/
theorem generate_monotone (p : ForecastParams) (rand : ℤ → ℚ)
    (hr : ∀ w, 0 ≤ rand w) (rc₁ rc₂ eb₁ eb₂ : ℤ)
    (hrc : rc₁ ≤ rc₂) (heb : eb₁ ≤ eb₂) :
    (∀ i (h₁ : i < (generateForecastWeeks
          { p with revenueConfidence := rc₁ } rand).length)
        (h₂ : i < (generateForecastWeeks
          { p with revenueConfidence := rc₂ } rand).length),
      ((generateForecastWeeks { p with revenueConfidence := rc₁ } rand).get
          ⟨i, h₁⟩).inflow ≤
        ((generateForecastWeeks { p with revenueConfidence := rc₂ } rand).get
          ⟨i, h₂⟩).inflow) ∧
    (∀ i (h₁ : i < (generateForecastWeeks
          { p with expenseBuffer := eb₁ } rand).length)
        (h₂ : i < (generateForecastWeeks
          { p with expenseBuffer := eb₂ } rand).length),
      ((generateForecastWeeks { p with expenseBuffer := eb₁ } rand).get
          ⟨i, h₁⟩).outflow ≤
        ((generateForecastWeeks { p with expenseBuffer := eb₂ } rand).get
          ⟨i, h₂⟩).outflow) := by
  constructor
  · intro i h₁ h₂
    rw [gen_get_inflow, gen_get_inflow]
    apply jsRound_mono
    have hb : 0 ≤ baseInflow rand ((i : ℤ) + 1) :=
      baseInflow_nonneg rand _ (hr _)
    have hc : (({ p with revenueConfidence := rc₁ } :
          ForecastParams).revenueConfidence : ℚ) / 100 ≤
        (({ p with revenueConfidence := rc₂ } :
          ForecastParams).revenueConfidence : ℚ) / 100 := by
      show ((rc₁ : ℚ)) / 100 ≤ ((rc₂ : ℚ)) / 100
      gcongr
    exact mul_le_mul_of_nonneg_left hc hb
  · intro i h₁ h₂
    rw [gen_get_outflow, gen_get_outflow]
    apply jsRound_mono
    have hb : 0 ≤ baseOutflow ((i : ℤ) + 1) + additionalExpense ((i : ℤ) + 1) :=
      baseOut_total_nonneg _
    have hc : (({ p with expenseBuffer := eb₁ } :
          ForecastParams).expenseBuffer : ℚ) / 100 ≤
        (({ p with expenseBuffer := eb₂ } :
          ForecastParams).expenseBuffer : ℚ) / 100 := by
      show ((eb₁ : ℚ)) / 100 ≤ ((eb₂ : ℚ)) / 100
      gcongr
    exact mul_le_mul_of_nonneg_left hc hb

/-- Witness for C9 at a concrete input (horizon 1, rand ≡ 0,
revenue confidence 90 vs 110, expense buffer 100 vs 120). -/
theorem generate_monotone_witness :
    (∀ w : ℤ, (0 : ℚ) ≤ (fun _ : ℤ => (0 : ℚ)) w) ∧ (90 : ℤ) ≤ 110 ∧
    (100 : ℤ) ≤ 120 ∧
    ((generateForecastWeeks ⟨1, 0, 0, 90, 100⟩ (fun _ => 0)).get
        ⟨0, by rw [generateForecastWeeks_length]; norm_num⟩).inflow ≤
      ((generateForecastWeeks ⟨1, 0, 0, 110, 100⟩ (fun _ => 0)).get
        ⟨0, by rw [generateForecastWeeks_length]; norm_num⟩).inflow ∧
    ((generateForecastWeeks ⟨1, 0, 0, 90, 100⟩ (fun _ => 0)).get
        ⟨0, by rw [generateForecastWeeks_length]; norm_num⟩).outflow ≤
      ((generateForecastWeeks ⟨1, 0, 0, 90, 120⟩ (fun _ => 0)).get
        ⟨0, by rw [generateForecastWeeks_length]; norm_num⟩).outflow :=
  ⟨fun _ => le_refl 0, by norm_num, by norm_num,
   (generate_monotone ⟨1, 0, 0, 90, 100⟩ (fun _ => 0) (fun _ => le_refl 0)
      90 110 100 120 (by norm_num) (by norm_num)).1 0
      (by rw [generateForecastWeeks_length]; norm_num)
      (by rw [generateForecastWeeks_length]; norm_num),
   (generate_monotone ⟨1, 0, 0, 90, 100⟩ (fun _ => 0) (fun _ => le_refl 0)
      90 110 100 120 (by norm_num) (by norm_num)).2 0
      (by rw [generateForecastWeeks_length]; norm_num)
      (by rw [generateForecastWeeks_length]; norm_num)⟩

theorem jsRound_eq_iff {x : ℚ} {n : ℤ} :
    jsRound x = n ↔ (n : ℚ) ≤ x + 1/2 ∧ x + 1/2 < n + 1 :=
  Int.floor_eq_iff

/-- C5 counterexample: with the same parameters and two different
randomness sources (0 versus 1/2) the outflow sequences coincide while the
inflow sequences differ, so the baseline outflow incorporates no random
jitter. -/
theorem outflow_jitter_cex :
    ((generateForecastWeeks ⟨1, 0, 0, 100, 100⟩ (fun _ => 0)).map (·.outflow) =
      (generateForecastWeeks ⟨1, 0, 0, 100, 100⟩ (fun _ => 1/2)).map
        (·.outflow)) ∧
    ((generateForecastWeeks ⟨1, 0, 0, 100, 100⟩ (fun _ => 0)).map (·.inflow) ≠
      (generateForecastWeeks ⟨1, 0, 0, 100, 100⟩ (fun _ => 1/2)).map
        (·.inflow)) := by
  constructor
  · rfl
  · have h₁ : (generateForecastWeeks ⟨1, 0, 0, 100, 100⟩ (fun _ => 0)).map
        (·.inflow) = [850000] := by
      show [jsRound (baseInflow (fun _ => 0) 1 * (((100 : ℤ) : ℚ) / 100))]
        = [850000]
      norm_num [baseInflow, jsRound_eq_iff]
    have h₂ : (generateForecastWeeks ⟨1, 0, 0, 100, 100⟩ (fun _ => 1/2)).map
        (·.inflow) = [900000] := by
      show [jsRound (baseInflow (fun _ => 1/2) 1 * (((100 : ℤ) : ℚ) / 100))]
        = [900000]
      norm_num [baseInflow, jsRound_eq_iff]
    rw [h₁, h₂]
    decide

/-- C5 (amended): the baseline inflow incorporates the random jitter
(before the revenue-confidence multiplier is applied), while the baseline
outflow is deterministic — it never depends on the randomness source. -/
theorem flows_jitter (p : ForecastParams) (r₁ r₂ : ℤ → ℚ) :
    ((generateForecastWeeks p r₁).map (·.outflow) =
      (generateForecastWeeks p r₂).map (·.outflow)) ∧
    ∀ i (hi : i < (generateForecastWeeks p r₁).length),
      ((generateForecastWeeks p r₁).get ⟨i, hi⟩).inflow =
        jsRound (baseInflow r₁ ((i : ℤ) + 1) *
          ((p.revenueConfidence : ℚ) / 100)) := by
  constructor
  · rw [show (generateForecastWeeks p r₁).map (·.outflow) = _ from
      loop_map_outflow p r₁ p.startingBalance _,
      show (generateForecastWeeks p r₂).map (·.outflow) = _ from
      loop_map_outflow p r₂ p.startingBalance _]
  · exact fun i hi => gen_get_inflow p r₁ i hi

/-- Witness for the amended C5 at a concrete input. -/
theorem flows_jitter_witness :
    ((generateForecastWeeks ⟨1, 0, 0, 100, 100⟩ (fun _ => 0)).map (·.outflow) =
      (generateForecastWeeks ⟨1, 0, 0, 100, 100⟩ (fun _ => 1/3)).map
        (·.outflow)) ∧
    ((generateForecastWeeks ⟨1, 0, 0, 100, 100⟩ (fun _ => 0)).get
        ⟨0, by rw [generateForecastWeeks_length]; norm_num⟩).inflow =
      jsRound (baseInflow (fun _ => 0) ((0 : ℤ) + 1) *
        (((100 : ℤ) : ℚ) / 100)) :=
  ⟨(flows_jitter ⟨1, 0, 0, 100, 100⟩ (fun _ => 0) (fun _ => 1/3)).1,
   (flows_jitter ⟨1, 0, 0, 100, 100⟩ (fun _ => 0) (fun _ => 1/3)).2 0
     (by rw [generateForecastWeeks_length]; norm_num)⟩

/-- C6 counterexample: the generator enforces no bounds on the
multipliers, and with `revenueConfidence = -100` the single generated
period has inflow `-850000 < 0`. -/
theorem inflow_nonneg_cex :
    ((generateForecastWeeks ⟨1, 0, 0, -100, 100⟩ (fun _ => 0)).map (·.inflow)
      = [-850000]) ∧ ¬ (0 ≤ (-850000 : ℤ)) := by
  constructor
  · show [jsRound (baseInflow (fun _ => 0) 1 * (((-100 : ℤ) : ℚ) / 100))]
      = [-850000]
    norm_num [baseInflow, jsRound_eq_iff]
  · decide

/-- C6 (amended): when the randomness values are nonnegative and both
multipliers are nonnegative, every generated period has inflow ≥ 0 and
outflow ≥ 0. -/
theorem flows_nonneg (p : ForecastParams) (rand : ℤ → ℚ)
    (hr : ∀ w, 0 ≤ rand w) (hrc : 0 ≤ p.revenueConfidence)
    (heb : 0 ≤ p.expenseBuffer) :
    ∀ w ∈ generateForecastWeeks p rand, 0 ≤ w.inflow ∧ 0 ≤ w.outflow := by
  intro w hw
  obtain ⟨hin, hout⟩ := loop_mem_flows p rand p.startingBalance _ w hw
  constructor
  · rw [hin]
    apply jsRound_nonneg
    apply mul_nonneg (baseInflow_nonneg rand _ (hr _))
    have h : (0 : ℚ) ≤ (p.revenueConfidence : ℚ) := by exact_mod_cast hrc
    positivity
  · rw [hout]
    apply jsRound_nonneg
    apply mul_nonneg (baseOut_total_nonneg _)
    have h : (0 : ℚ) ≤ (p.expenseBuffer : ℚ) := by exact_mod_cast heb
    positivity

/-- Witness for the amended C6 at a concrete input. -/
theorem flows_nonneg_witness :
    (∀ w : ℤ, (0 : ℚ) ≤ (fun _ : ℤ => (0 : ℚ)) w) ∧
    (0 : ℤ) ≤ 100 ∧ (0 : ℤ) ≤ 110 ∧
    (0 ≤ ((generateForecastWeeks ⟨1, 0, 0, 100, 110⟩ (fun _ => 0)).get
        ⟨0, by rw [generateForecastWeeks_length]; norm_num⟩).inflow ∧
      0 ≤ ((generateForecastWeeks ⟨1, 0, 0, 100, 110⟩ (fun _ => 0)).get
        ⟨0, by rw [generateForecastWeeks_length]; norm_num⟩).outflow) :=
  ⟨fun _ => le_refl 0, by norm_num, by norm_num,
   flows_nonneg ⟨1, 0, 0, 100, 110⟩ (fun _ => 0) (fun _ => le_refl 0)
     (by norm_num) (by norm_num) _
     (List.get_mem _ 0 (by rw [generateForecastWeeks_length]; norm_num))⟩

/-- C2 counterexample: a non-positive horizon (-3) produces an ordinary
empty sequence (no `InvalidParameter` failure exists in the code), and the
KPI derivation on the empty sequence silently returns a default KPI record
(`lowestCash` = the `Infinity` sentinel, runway = 99) instead of raising. -/
theorem invalid_input_cex :
    generateForecastWeeks ⟨-3, 0, 5000000, 100, 100⟩ (fun _ => 0) = [] ∧
    calculateKPIs [] = ⟨⊤, 0, 99, 0, 0, 0, Volatility.Low, 0⟩ := by
  constructor
  · rfl
  · show KPIs.mk _ _ _ _ _ _ _ _ = _
    norm_num [calculateKPIs, averageBurnRate, listMin, jsRound_eq_iff]

/-- C2 (amended): for every non-positive horizon the generator returns the
empty sequence without error, and the KPI derivation on an empty sequence
returns the default KPI record rather than failing. -/
theorem invalid_input_behavior (p : ForecastParams) (rand : ℤ → ℚ)
    (h : p.weeks ≤ 0) :
    generateForecastWeeks p rand = [] ∧
    calculateKPIs [] = ⟨⊤, 0, 99, 0, 0, 0, Volatility.Low, 0⟩ := by
  constructor
  · unfold generateForecastWeeks
    rw [Int.toNat_of_nonpos h]
    rfl
  · show KPIs.mk _ _ _ _ _ _ _ _ = _
    norm_num [calculateKPIs, averageBurnRate, listMin, jsRound_eq_iff]

/-- Witness for the amended C2 at a concrete input (horizon -3). -/
theorem invalid_input_behavior_witness :
    (-3 : ℤ) ≤ 0 ∧
    (generateForecastWeeks ⟨-3, 0, 42, 100, 100⟩ (fun _ => 0) = [] ∧
      calculateKPIs [] = ⟨⊤, 0, 99, 0, 0, 0, Volatility.Low, 0⟩) :=
  ⟨by norm_num,
   invalid_input_behavior ⟨-3, 0, 42, 100, 100⟩ (fun _ => 0) (by norm_num)⟩

theorem averageBurnRate_eq (data : List ForecastWeek)
    (hne : data.filter (fun f => decide (f.net < 0)) ≠ []) :
    averageBurnRate data =
      ((((data.filter (fun f => decide (f.net < 0))).map
        (fun f => |f.net|)).sum : ℤ) : ℚ) /
      (((data.filter (fun f => decide (f.net < 0))).length : ℕ) : ℚ) := by
  have hlen : 0 < (data.filter (fun f => decide (f.net < 0))).length :=
    List.length_pos.mpr hne
  have hallneg : ∀ x ∈ (data.filter (fun f => decide (f.net < 0))).map
      (·.net), x < 0 := by
    intro x hx
    rcases List.mem_map.mp hx with ⟨f, hf, rfl⟩
    exact of_decide_eq_true (List.mem_filter.mp hf).2
  have hmapne : (data.filter (fun f => decide (f.net < 0))).map (·.net)
      ≠ [] := by
    simpa using hne
  have hsum : ((data.filter (fun f => decide (f.net < 0))).map
      (·.net)).sum < 0 :=
    sum_neg_of_all_neg _ hmapne hallneg
  have habs : ((data.filter (fun f => decide (f.net < 0))).map
      (fun f => |f.net|)).sum =
      -((data.filter (fun f => decide (f.net < 0))).map (·.net)).sum := by
    have hmm : (data.filter (fun f => decide (f.net < 0))).map
        (fun f => |f.net|) =
        ((data.filter (fun f => decide (f.net < 0))).map (·.net)).map
          (fun x => |x|) := by
      simp [List.map_map, Function.comp]
    rw [hmm, sum_abs_of_all_neg _ hallneg]
  simp only [averageBurnRate]
  rw [if_pos hlen, habs]
  rw [abs_div,
    abs_of_neg (show ((((data.filter (fun f => decide (f.net < 0))).map
      (·.net)).sum : ℤ) : ℚ) < 0 from by exact_mod_cast hsum),
    abs_of_pos (show (0 : ℚ) < (((data.filter
      (fun f => decide (f.net < 0))).length : ℕ) : ℚ) from by
        exact_mod_cast hlen)]
  rw [Int.cast_neg]

theorem averageBurnRate_pos (data : List ForecastWeek)
    (hne : data.filter (fun f => decide (f.net < 0)) ≠ []) :
    0 < averageBurnRate data := by
  rw [averageBurnRate_eq data hne]
  have hallneg : ∀ x ∈ (data.filter (fun f => decide (f.net < 0))).map
      (·.net), x < 0 := by
    intro x hx
    rcases List.mem_map.mp hx with ⟨f, hf, rfl⟩
    exact of_decide_eq_true (List.mem_filter.mp hf).2
  have hmapne : (data.filter (fun f => decide (f.net < 0))).map (·.net)
      ≠ [] := by
    simpa using hne
  have hsum : ((data.filter (fun f => decide (f.net < 0))).map
      (·.net)).sum < 0 :=
    sum_neg_of_all_neg _ hmapne hallneg
  have hmm : (data.filter (fun f => decide (f.net < 0))).map
      (fun f => |f.net|) =
      ((data.filter (fun f => decide (f.net < 0))).map (·.net)).map
        (fun x => |x|) := by
    simp [List.map_map, Function.comp]
  have habs : 0 < ((data.filter (fun f => decide (f.net < 0))).map
      (fun f => |f.net|)).sum := by
    rw [hmm, sum_abs_of_all_neg _ hallneg]
    omega
  have hlen : 0 < (data.filter (fun f => decide (f.net < 0))).length :=
    List.length_pos.mpr hne
  apply div_pos
  · exact_mod_cast habs
  · exact_mod_cast hlen

theorem final_balance_eq (data : List ForecastWeek) (hne : data ≠ []) :
    ((data.getLast?).map (·.balance)).getD 0 = (data.getLast hne).balance := by
  rw [List.getLast?_eq_getLast_of_ne_nil hne]
  rfl

/-- C3: on a non-empty period sequence the KPI derivation's average burn
rate is the mean of `|net|` over exactly the periods with negative net,
and when that average is positive the runway is the floor of the FINAL
period's balance divided by it. -/
theorem kpi_burn_runway (data : List ForecastWeek) (hne : data ≠ []) :
    (data.filter (fun f => decide (f.net < 0)) ≠ [] →
      averageBurnRate data =
        ((((data.filter (fun f => decide (f.net < 0))).map
          (fun f => |f.net|)).sum : ℤ) : ℚ) /
        (((data.filter (fun f => decide (f.net < 0))).length : ℕ) : ℚ)) ∧
    (0 < averageBurnRate data →
      (calculateKPIs data).runway =
        ⌊((data.getLast hne).balance : ℚ) / averageBurnRate data⌋) := by
  refine ⟨fun hnf => averageBurnRate_eq data hnf, fun hpos => ?_⟩
  show (if 0 < averageBurnRate data then
      ⌊((((data.getLast?).map (·.balance)).getD 0 : ℤ) : ℚ) /
        averageBurnRate data⌋ else (99 : ℤ)) =
    ⌊((data.getLast hne).balance : ℚ) / averageBurnRate data⌋
  rw [if_pos hpos, final_balance_eq data hne]

/-- Witness for C3 on a concrete one-period sequence (net = -5,
balance = 995). -/
theorem kpi_burn_runway_witness :
    ([(⟨1, 0, 0, 5, -5, 995⟩ : ForecastWeek)] : List ForecastWeek) ≠ [] ∧
    ([(⟨1, 0, 0, 5, -5, 995⟩ : ForecastWeek)].filter
      (fun f => decide (f.net < 0)) ≠ []) ∧
    0 < averageBurnRate [(⟨1, 0, 0, 5, -5, 995⟩ : ForecastWeek)] ∧
    (averageBurnRate [(⟨1, 0, 0, 5, -5, 995⟩ : ForecastWeek)] =
      (((([(⟨1, 0, 0, 5, -5, 995⟩ : ForecastWeek)].filter
        (fun f => decide (f.net < 0))).map (fun f => |f.net|)).sum : ℤ) : ℚ) /
      ((([(⟨1, 0, 0, 5, -5, 995⟩ : ForecastWeek)].filter
        (fun f => decide (f.net < 0))).length : ℕ) : ℚ)) ∧
    (calculateKPIs [(⟨1, 0, 0, 5, -5, 995⟩ : ForecastWeek)]).runway =
      ⌊(((995 : ℤ)) : ℚ) /
        averageBurnRate [(⟨1, 0, 0, 5, -5, 995⟩ : ForecastWeek)]⌋ :=
  ⟨by decide, by decide, by norm_num [averageBurnRate],
   (kpi_burn_runway [(⟨1, 0, 0, 5, -5, 995⟩ : ForecastWeek)] (by decide)).1
     (by decide),
   (kpi_burn_runway [(⟨1, 0, 0, 5, -5, 995⟩ : ForecastWeek)] (by decide)).2
     (by norm_num [averageBurnRate])⟩

/-- C7: when every period's net is nonnegative the KPI derivation returns
average burn rate 0 and the "no burn" sentinel runway 99; moreover the
division in the runway computation is guarded, so whenever the average
burn rate is not positive the runway is the sentinel (no division is
performed). -/
theorem kpi_no_burn (data : List ForecastWeek) (hne : data ≠ [])
    (hpos : ∀ f ∈ data, 0 ≤ f.net) :
    averageBurnRate data = 0 ∧ (calculateKPIs data).runway = 99 ∧
    ∀ d : List ForecastWeek, ¬ 0 < averageBurnRate d →
      (calculateKPIs d).runway = 99 := by
  have hfilter : data.filter (fun f => decide (f.net < 0)) = [] :=
    List.filter_eq_nil_iff.mpr
      (fun f hf => by simpa using not_lt.mpr (hpos f hf))
  have havg : averageBurnRate data = 0 := by
    simp only [averageBurnRate, hfilter]
    norm_num
  refine ⟨havg, ?_, ?_⟩
  · show (if 0 < averageBurnRate data then
        ⌊((((data.getLast?).map (·.balance)).getD 0 : ℤ) : ℚ) /
          averageBurnRate data⌋ else (99 : ℤ)) = 99
    rw [if_neg (by rw [havg]; exact lt_irrefl 0)]
  · intro d hd
    show (if 0 < averageBurnRate d then
        ⌊((((d.getLast?).map (·.balance)).getD 0 : ℤ) : ℚ) /
          averageBurnRate d⌋ else (99 : ℤ)) = 99
    rw [if_neg hd]

/-- Witness for C7 on a concrete one-period sequence with nonnegative
net. -/
theorem kpi_no_burn_witness :
    ([(⟨1, 0, 5, 2, 3, 103⟩ : ForecastWeek)] : List ForecastWeek) ≠ [] ∧
    (∀ f ∈ ([(⟨1, 0, 5, 2, 3, 103⟩ : ForecastWeek)] : List ForecastWeek),
      0 ≤ f.net) ∧
    (averageBurnRate [(⟨1, 0, 5, 2, 3, 103⟩ : ForecastWeek)] = 0 ∧
      (calculateKPIs [(⟨1, 0, 5, 2, 3, 103⟩ : ForecastWeek)]).runway = 99) :=
  ⟨by decide, by decide,
   (kpi_no_burn [(⟨1, 0, 5, 2, 3, 103⟩ : ForecastWeek)] (by decide)
      (by decide)).1,
   (kpi_no_burn [(⟨1, 0, 5, 2, 3, 103⟩ : ForecastWeek)] (by decide)
      (by decide)).2.1⟩

/-- C10: on a non-empty sequence with at least one negative net and a
strictly negative final balance, the runway is strictly negative (the
floor of a negative quotient); it is neither clamped to zero nor replaced
by the sentinel. -/
theorem kpi_negative_runway (data : List ForecastWeek) (hne : data ≠ [])
    (hneg : ∃ f ∈ data, f.net < 0)
    (hlast : (data.getLast hne).balance < 0) :
    (calculateKPIs data).runway < 0 := by
  obtain ⟨f, hf, hfneg⟩ := hneg
  have hmemf : f ∈ data.filter (fun f => decide (f.net < 0)) :=
    List.mem_filter.mpr ⟨hf, by simpa using hfneg⟩
  have hnf : data.filter (fun f => decide (f.net < 0)) ≠ [] :=
    List.ne_nil_of_mem hmemf
  have hpos : 0 < averageBurnRate data := averageBurnRate_pos data hnf
  show (if 0 < averageBurnRate data then
      ⌊((((data.getLast?).map (·.balance)).getD 0 : ℤ) : ℚ) /
        averageBurnRate data⌋ else (99 : ℤ)) < 0
  rw [if_pos hpos, final_balance_eq data hne]
  have hq : ((data.getLast hne).balance : ℚ) / averageBurnRate data < 0 :=
    div_neg_of_neg_of_pos (by exact_mod_cast hlast) hpos
  exact Int.floor_lt.mpr (by exact_mod_cast hq)

/-- Witness for C10 on a concrete one-period sequence (net = -5, final
balance = -5). -/
theorem kpi_negative_runway_witness :
    ([(⟨1, 0, 0, 5, -5, -5⟩ : ForecastWeek)] : List ForecastWeek) ≠ [] ∧
    (∃ f ∈ ([(⟨1, 0, 0, 5, -5, -5⟩ : ForecastWeek)] : List ForecastWeek),
      f.net < 0) ∧
    (([(⟨1, 0, 0, 5, -5, -5⟩ : ForecastWeek)] :
      List ForecastWeek).getLast (by decide)).balance < 0 ∧
    (calculateKPIs [(⟨1, 0, 0, 5, -5, -5⟩ : ForecastWeek)]).runway < 0 :=
  ⟨by decide, by decide, by decide,
   kpi_negative_runway [(⟨1, 0, 0, 5, -5, -5⟩ : ForecastWeek)] (by decide)
     (by decide) (by decide)⟩

/-- C4: on a non-empty period sequence whose week numbers are
`1, 2, ...` in order, the KPI derivation's lowest-balance value is the
minimum over all balances, and the reported lowest-week number is the
smallest index achieving that minimum (first occurrence on ties). -/
theorem kpi_lowest (data : List ForecastWeek) (hne : data ≠ [])
    (hidx : ∀ i (hi : i < data.length),
      (data.get ⟨i, hi⟩).week_number = (i : ℤ) + 1) :
    (∀ f ∈ data, (calculateKPIs data).lowestCash ≤ (f.balance : WithTop ℤ)) ∧
    (∃ i, ∃ hi : i < data.length,
      ((data.get ⟨i, hi⟩).balance : WithTop ℤ) =
        (calculateKPIs data).lowestCash ∧
      (calculateKPIs data).lowestWeek = (i : ℤ) + 1 ∧
      ∀ j (hj : j < data.length), j < i →
        (calculateKPIs data).lowestCash <
          ((data.get ⟨j, hj⟩).balance : WithTop ℤ)) := by
  have hLC : (calculateKPIs data).lowestCash =
      listMin (data.map (·.balance)) := rfl
  constructor
  · intro f hf
    rw [hLC]
    exact listMin_le (List.mem_map_of_mem _ hf)
  · have hballs : data.map (·.balance) ≠ [] := by simpa using hne
    obtain ⟨b, hbmem, hbeq⟩ := listMin_attained hballs
    obtain ⟨f0, hf0, rfl⟩ := List.mem_map.mp hbmem
    have hq : (fun f => decide ((f.balance : WithTop ℤ) =
        listMin (data.map (·.balance)))) f0 = true := by
      simp only [decide_eq_true_eq]
      exact hbeq
    obtain ⟨a, ha⟩ := find?_isSome_of_mem
      (fun f => decide ((f.balance : WithTop ℤ) =
        listMin (data.map (·.balance)))) data f0 hf0 hq
    obtain ⟨i, hi, hget, hqa, hfirst⟩ := find?_first _ data a ha
    have haeq : ((a.balance : WithTop ℤ)) =
        listMin (data.map (·.balance)) := of_decide_eq_true hqa
    refine ⟨i, hi, ?_, ?_, ?_⟩
    · rw [hget, hLC]
      exact haeq
    · have hLW : (calculateKPIs data).lowestWeek =
          ((data.find? (fun f => decide ((f.balance : WithTop ℤ) =
            listMin (data.map (·.balance))))).map (·.week_number)).getD 0 :=
        rfl
      rw [hLW, ha]
      show a.week_number = (i : ℤ) + 1
      rw [← hget]
      exact hidx i hi
    · intro j hj hji
      have hfalse := hfirst j hj hji
      have hne' : ¬ (((data.get ⟨j, hj⟩).balance : WithTop ℤ) =
          listMin (data.map (·.balance))) :=
        of_decide_eq_false hfalse
      have hle : listMin (data.map (·.balance)) ≤
          ((data.get ⟨j, hj⟩).balance : WithTop ℤ) :=
        listMin_le (List.mem_map_of_mem _ (List.get_mem data j hj))
      rw [hLC]
      exact lt_of_le_of_ne hle (fun heq => hne' heq.symm)

/-- Witness for C4 on a concrete two-period sequence (balances 500 and
300, minimum 300 first achieved at the second period). -/
theorem kpi_lowest_witness :
    ([(⟨1, 0, 0, 0, 0, 500⟩ : ForecastWeek), ⟨2, 0, 0, 0, 0, 300⟩] :
      List ForecastWeek) ≠ [] ∧
    (∀ f ∈ ([(⟨1, 0, 0, 0, 0, 500⟩ : ForecastWeek), ⟨2, 0, 0, 0, 0, 300⟩] :
        List ForecastWeek),
      (calculateKPIs [(⟨1, 0, 0, 0, 0, 500⟩ : ForecastWeek),
        ⟨2, 0, 0, 0, 0, 300⟩]).lowestCash ≤ (f.balance : WithTop ℤ)) ∧
    (∃ i, ∃ hi : i < ([(⟨1, 0, 0, 0, 0, 500⟩ : ForecastWeek),
        ⟨2, 0, 0, 0, 0, 300⟩] : List ForecastWeek).length,
      ((([(⟨1, 0, 0, 0, 0, 500⟩ : ForecastWeek), ⟨2, 0, 0, 0, 0, 300⟩] :
          List ForecastWeek).get ⟨i, hi⟩).balance : WithTop ℤ) =
        (calculateKPIs [(⟨1, 0, 0, 0, 0, 500⟩ : ForecastWeek),
          ⟨2, 0, 0, 0, 0, 300⟩]).lowestCash ∧
      (calculateKPIs [(⟨1, 0, 0, 0, 0, 500⟩ : ForecastWeek),
        ⟨2, 0, 0, 0, 0, 300⟩]).lowestWeek = (i : ℤ) + 1 ∧
      ∀ j (hj : j < ([(⟨1, 0, 0, 0, 0, 500⟩ : ForecastWeek),
          ⟨2, 0, 0, 0, 0, 300⟩] : List ForecastWeek).length), j < i →
        (calculateKPIs [(⟨1, 0, 0, 0, 0, 500⟩ : ForecastWeek),
          ⟨2, 0, 0, 0, 0, 300⟩]).lowestCash <
          ((([(⟨1, 0, 0, 0, 0, 500⟩ : ForecastWeek), ⟨2, 0, 0, 0, 0, 300⟩] :
            List ForecastWeek).get ⟨j, hj⟩).balance : WithTop ℤ)) :=
  ⟨by decide,
   (kpi_lowest [(⟨1, 0, 0, 0, 0, 500⟩ : ForecastWeek), ⟨2, 0, 0, 0, 0, 300⟩]
     (by decide) (by
       intro i hi
       have hb : i < 2 := by simpa using hi
       interval_cases i <;> rfl)).1,
   (kpi_lowest [(⟨1, 0, 0, 0, 0, 500⟩ : ForecastWeek), ⟨2, 0, 0, 0, 0, 300⟩]
     (by decide) (by
       intro i hi
       have hb : i < 2 := by simpa using hi
       interval_cases i <;> rfl)).2⟩

end CashForecast
